import Mathlib

/-!
# Verification of the debate-orchestration / incident-memory core

Shallow embedding of the decision-agent coordinator implemented in
`src/server.ts` (classes `DebateCoordinator`, `ReliabilityAgent`, `CostAgent`,
`UXAgent`).  Strings are `List Char` / `String`; JavaScript regular-expression
matching is embedded as explicit leftmost-first scanners with the exact
backtracking behaviour of the concrete patterns used by the source; machine
timestamps (`Date.now` / `toISOString` round-trips) are modelled as natural
numbers of epoch milliseconds, which the ISO-8601 serialisation used by the
source preserves both in value and in order; the opaque text-completion
service is a parameter; fallible calls are `Except Unit String`.
-/

namespace DecisionAgent

/-- JavaScript `\s` (also the class trimmed by `String.prototype.trim`):
tab, LF, VT, FF, CR, space, NBSP, Ogham space, the U+2000–U+200A range,
LS, PS, NNBSP, MMSP, ideographic space, and the BOM. -/
def isJsWs (c : Char) : Bool :=
  c = ' ' || c = '\t' || c = '\n' || c = '\x0b' || c = '\x0c' || c = '\r' ||
  c.toNat = 0xa0 || c.toNat = 0x1680 ||
  (0x2000 ≤ c.toNat && c.toNat ≤ 0x200a) ||
  c.toNat = 0x2028 || c.toNat = 0x2029 || c.toNat = 0x202f ||
  c.toNat = 0x205f || c.toNat = 0x3000 || c.toNat = 0xfeff

/-- JavaScript line terminators: the characters *not* matched by `.`
(dot without the `s` flag). -/
def isLineTerm (c : Char) : Bool :=
  c = '\n' || c = '\r' || c.toNat = 0x2028 || c.toNat = 0x2029

/-- A character `.` can match. -/
def dotOk (c : Char) : Bool := !(isLineTerm c)

/-- ASCII digit, JavaScript `\d`. -/
def isDigitCh (c : Char) : Bool := '0' ≤ c && c ≤ '9'

/-- The character class `[\d.]` of the metric patterns. -/
def isDigitDot (c : Char) : Bool := isDigitCh c || c = '.'

/-- The character class `[:\s]` of the metric patterns. -/
def isColonWs (c : Char) : Bool := c = ':' || isJsWs c

/-- `String.prototype.toLowerCase`, character-wise (all text handled by the
source and by the claims is ASCII, where JS and Unicode lowercasing agree). -/
def lowerL (l : List Char) : List Char := l.map Char.toLower

/-- `trim`: strip JS whitespace from both ends. -/
def trimJs (l : List Char) : List Char :=
  ((l.dropWhile isJsWs).reverse.dropWhile isJsWs).reverse

/-- `pat` is a (case-sensitive) prefix of `l`. -/
def startsWithL : List Char → List Char → Bool
  | [], _ => true
  | _ :: _, [] => false
  | p :: ps, c :: cs => p = c && startsWithL ps cs

/-- `String.prototype.includes`: `pat` occurs contiguously in `l`
(the scan of every start position). -/
def containsSub (pat : List Char) : List Char → Bool
  | [] => startsWithL pat []
  | c :: t => startsWithL pat (c :: t) || containsSub pat t

/-! ## DecisionClassifier (src/server.ts lines 475–486) -/

/-- The fixed keyword set of the decision classifier. -/
def decisionKeywords : List String :=
  ["rollback", "deploy", "hotfix", "launch", "release", "should we", "decision"]

/-- `decisionKeywords.some(k => userQuestion.toLowerCase().includes(k))`. -/
def isDecisionQuestion (q : String) : Bool :=
  decisionKeywords.any (fun k => containsSub k.data (lowerL q.data))

/-- `lastMessage?.parts?.find(p => p.type === "text")?.text || ""`: a missing
text part yields the empty string (and `""` is JS-falsy, so `|| ""` keeps it). -/
def questionText (t : Option String) : String :=
  match t with
  | some s => s
  | none => ""

/-! ## Embedded regular-expression scanners

Each `/.../i` pattern of the source starts with a fixed literal, so a match
attempt is: at every start position (leftmost first), match the literal
case-insensitively, then run the pattern tail with its exact greedy/lazy
backtracking.  `scanFor` is that generic scan. -/

/-- Case-insensitive literal match at the head: `pat` is given lowercased;
on success returns the remainder of the input. -/
def matchLitCI : List Char → List Char → Option (List Char)
  | [], l => some l
  | _ :: _, [] => none
  | p :: ps, c :: cs => if p = c.toLower then matchLitCI ps cs else none

/-- Leftmost-first scan: at each position try the (lowercased) literal `pat`
followed by the pattern tail `f`; on failure resume one character later,
exactly as the JS regex engine advances its start position. -/
def scanFor (pat : List Char) (f : List Char → Option (List Char)) :
    List Char → Option (List Char)
  | [] => none
  | c :: t =>
    match matchLitCI pat (c :: t) with
    | some rest =>
      match f rest with
      | some res => some res
      | none => scanFor pat f t
    | none => scanFor pat f t

/-- Tail of `/\*\*Final Recommendation:\*\*\s*(.+?)(?:\n|$)/i` after the
literal: greedy `\s*` (longest run first, backtracking one character at a
time), then lazy `(.+?)` of dot characters, then `\n` or end of input.
`wsRev` is the reversed still-consumed whitespace, `r2` the rest. -/
def dtSearch : List Char → List Char → Option (List Char)
  | wsRev, r2 =>
    let run := r2.takeWhile dotOk
    if run ≠ [] ∧ ((r2.drop run.length) = [] ∨ (r2.drop run.length).head? = some '\n')
    then some run
    else
      match wsRev with
      | [] => none
      | c :: rest => dtSearch rest (c :: r2)

/-- Match `\s*(.+?)(?:\n|$)` at the start of `rest`; returns the capture. -/
def decisionTail (rest : List Char) : Option (List Char) :=
  let ws := rest.takeWhile isJsWs
  dtSearch ws.reverse (rest.drop ws.length)

/-- Lazy `.*?\*\*`: before consuming each dot character, first try the
literal `**` here; on `**` return the remainder after it. -/
def scanToStars : List Char → Option (List Char)
  | [] => none
  | [c] => if dotOk c then none else none
  | c :: c2 :: t =>
    if c = '*' ∧ c2 = '*' then some t
    else if dotOk c then scanToStars (c2 :: t) else none

/-- Lazy `([\s\S]*?)(?:\*\*|$)`: capture any characters up to the first `**`,
or to the end of input. -/
def captureToStars : List Char → List Char
  | [] => []
  | [c] => [c]
  | c :: c2 :: t =>
    if c = '*' ∧ c2 = '*' then []
    else c :: captureToStars (c2 :: t)

/-- Tail of `/\*\*Why.*?\*\*([\s\S]*?)(?:\*\*|$)/i` after the literal `**Why`. -/
def whyTail (rest : List Char) : Option (List Char) :=
  (scanToStars rest).map captureToStars

/-- Tail of `/error rate[:\s]+([\d.]+%?)/i` after the literal: `[:\s]+` then
`([\d.]+%?)`.  The classes `[:\s]` and `[\d.]` are disjoint, so the greedy
runs admit no other backtracking alternative. -/
def errorRateTail (rest : List Char) : Option (List Char) :=
  let ws := rest.takeWhile isColonWs
  if ws = [] then none
  else
    let r2 := rest.drop ws.length
    let num := r2.takeWhile isDigitDot
    if num = [] then none
    else
      match r2.drop num.length with
      | '%' :: _ => some (num ++ ['%'])
      | _ => some num

/-- Tail of `/(?:latency|p95)[:\s]+([\d.]+ms?)/i` after either alternative:
`[:\s]+` then `([\d.]+ms?)` — the `m` is required by the pattern, the `s`
optional, both case-insensitive with the original characters captured. -/
def latencyTail (rest : List Char) : Option (List Char) :=
  let ws := rest.takeWhile isColonWs
  if ws = [] then none
  else
    let r2 := rest.drop ws.length
    let num := r2.takeWhile isDigitDot
    if num = [] then none
    else
      match r2.drop num.length with
      | c1 :: c2 :: _ =>
        if c1.toLower = 'm' then
          if c2.toLower = 's' then some (num ++ [c1, c2]) else some (num ++ [c1])
        else none
      | [c1] => if c1.toLower = 'm' then some (num ++ [c1]) else none
      | [] => none

/-- First match of `/(?:latency|p95)[:\s]+([\d.]+ms?)/i`: at each position the
engine tries the alternative `latency`, then `p95` (their first characters
differ, so at most one can match at a position), then the tail. -/
def scanLatency : List Char → Option (List Char)
  | [] => none
  | c :: t =>
    match matchLitCI "latency".data (c :: t) with
    | some rest =>
      match latencyTail rest with
      | some res => some res
      | none =>
        match matchLitCI "p95".data (c :: t) with
        | some rest2 =>
          match latencyTail rest2 with
          | some res => some res
          | none => scanLatency t
        | none => scanLatency t
    | none =>
      match matchLitCI "p95".data (c :: t) with
      | some rest2 =>
        match latencyTail rest2 with
        | some res => some res
        | none => scanLatency t
      | none => scanLatency t

/-! ## Structured extraction from the synthesis text
(src/server.ts lines 579–595) -/

/-- JS `split` on the one-character regex `-`: split at every `-`. -/
def splitHyphen : List Char → List (List Char)
  | [] => [[]]
  | c :: t =>
    if c = '-' then [] :: splitHyphen t
    else
      match splitHyphen t with
      | h :: r => (c :: h) :: r
      | [] => [[c]]

/-- `decision`: capture of `/\*\*Final Recommendation:\*\*\s*(.+?)(?:\n|$)/i`,
trimmed; fallback `"No clear decision reached"` when the pattern has no match. -/
def extractDecision (text : String) : String :=
  match scanFor "**final recommendation:**".data decisionTail text.data with
  | some cap => String.mk (trimJs cap)
  | none => "No clear decision reached"

/-- `reasoning`: capture of `/\*\*Why.*?\*\*([\s\S]*?)(?:\*\*|$)/i`, split on
every `-`, entries whose trim is empty dropped, remaining entries trimmed,
truncated to the first 3; fallback a single fixed string when no match. -/
def extractReasoning (text : String) : List String :=
  match scanFor "**why".data whyTail text.data with
  | some block =>
    ((((splitHyphen block).filter (fun r => trimJs r ≠ [])).map
      (fun r => String.mk (trimJs r))).take 3)
  | none => ["Decision made based on agent perspectives"]

/-! ## Metrics snapshot extraction (src/server.ts lines 597–621) -/

/-- A JS number that may be `NaN` (`none`); the finite values reached by the
source are exact decimals, modelled in `ℚ`. -/
abbrev JSNum := Option ℚ

/-- Value of a digit run. -/
def digitsVal (l : List Char) : ℕ :=
  l.foldl (fun a c => 10 * a + (c.toNat - 48)) 0

/-- JS `parseFloat` on the capture strings produced by the metric patterns
(a nonempty `[\d.]+` run, possibly followed by `%`, `m` or `ms`): the leading
`digits [. digits]` prefix, `NaN` when no digit occurs before a second dot. -/
def jsParseFloat (l : List Char) : JSNum :=
  let ip := l.takeWhile isDigitCh
  match l.drop ip.length with
  | '.' :: r2 =>
    let fp := r2.takeWhile isDigitCh
    if ip = [] ∧ fp = [] then none
    else some ((digitsVal ip : ℚ) + (digitsVal fp : ℚ) / (10 : ℚ) ^ fp.length)
  | _ => if ip = [] then none else some ((digitsVal ip : ℚ))

/-- The optional `metricsSnapshot` object: fields are set only when the
corresponding pattern matched (`errorRate`/`latency`). -/
structure MetricsSnapshot where
  errorRate : Option JSNum
  latency : Option JSNum
deriving DecidableEq, Repr

/-- Lines 597–621: run both patterns over the question; `parseFloat` each
capture; the whole object is omitted (`undefined`) when no field was set
(`Object.keys(metricsSnapshot).length > 0` fails). -/
def extractMetrics (q : String) : Option MetricsSnapshot :=
  let er := scanFor "error rate".data errorRateTail q.data
  let la := scanLatency q.data
  match er, la with
  | none, none => none
  | _, _ => some { errorRate := er.map jsParseFloat, latency := la.map jsParseFloat }

/-! ## Data model (src/server.ts lines 24–53) -/

inductive IncidentStatus where
  | open_
  | resolved
  | monitoring
deriving DecidableEq, Repr

structure IncidentOutcome where
  result : String
  resolvedAt : Option String
  notes : Option String
deriving DecidableEq, Repr

structure Hypotheses where
  reliability : String
  cost : String
  ux : String
deriving DecidableEq, Repr

/-- `IncidentMemory`.  `timestamp` is the creation instant in epoch
milliseconds; the source stores `new Date().toISOString()` and compares
records by `new Date(ts).getTime()`, a value- and order-preserving
round-trip of this number. -/
structure IncidentMemory where
  id : String
  question : String
  timestamp : Nat
  status : IncidentStatus
  metricsSnapshot : Option MetricsSnapshot
  hypotheses : Hypotheses
  decision : String
  reasoning : List String
  outcome : Option IncidentOutcome
  summary : Option String
deriving DecidableEq, Repr

structure DebateCoordinatorState where
  incidents : List IncidentMemory
  lastUpdated : Nat
deriving DecidableEq, Repr

/-! ## IncidentStore operations (src/server.ts lines 369–406) -/

/-- One incident matches the (lowercased) query when it occurs in the
question, decision, any of the three hypotheses, any reasoning entry, or —
when present — the summary (lines 375–383). -/
def matchesIncident (query : List Char) (i : IncidentMemory) : Bool :=
  containsSub query (lowerL i.question.data) ||
  containsSub query (lowerL i.decision.data) ||
  containsSub query (lowerL i.hypotheses.reliability.data) ||
  containsSub query (lowerL i.hypotheses.cost.data) ||
  containsSub query (lowerL i.hypotheses.ux.data) ||
  i.reasoning.any (fun r => containsSub query (lowerL r.data)) ||
  (match i.summary with
   | some s => containsSub query (lowerL s.data)
   | none => false)

/-- Stable insertion keeping newest-first order (equal timestamps keep their
original relative order, as the stable JS `Array.prototype.sort` does). -/
def insertByTs (x : IncidentMemory) : List IncidentMemory → List IncidentMemory
  | [] => [x]
  | y :: t => if y.timestamp ≤ x.timestamp then x :: y :: t else y :: insertByTs x t

/-- The comparator `(a, b) => getTime(b) - getTime(a)` under a stable sort:
newest first. -/
def sortByTsDesc : List IncidentMemory → List IncidentMemory
  | [] => []
  | x :: t => insertByTs x (sortByTsDesc t)

/-- `getIncidents` (lines 369–390).  `if (searchQuery)` is JS truthiness, so
an absent *or empty* query skips the filter; `filter` allocates a fresh
array, but on the unfiltered path `incidents.sort(...)` reorders
`state.incidents` itself in place — the returned pair is
(returned list, state after the call). -/
def getIncidents (searchQuery : Option String) (st : DebateCoordinatorState) :
    List IncidentMemory × DebateCoordinatorState :=
  let filtered :=
    match searchQuery with
    | some q =>
      if q = "" then none
      else some (st.incidents.filter (matchesIncident (lowerL q.data)))
    | none => none
  match filtered with
  | some l => (sortByTsDesc l, st)
  | none => (sortByTsDesc st.incidents, { st with incidents := sortByTsDesc st.incidents })

structure DeleteResult where
  success : Bool
  deletedId : String
deriving DecidableEq, Repr

/-- `deleteIncident` (lines 395–406): filter the record out, stamp
`lastUpdated` with the current instant, and report `success: true` with the
requested id unconditionally. -/
def deleteIncident (now : Nat) (idv : String) (st : DebateCoordinatorState) :
    DeleteResult × DebateCoordinatorState :=
  let nextIncidents := st.incidents.filter (fun i => i.id != idv)
  ({ success := true, deletedId := idv },
   { incidents := nextIncidents, lastUpdated := now })

/-! ## The decision turn of DebateCoordinator.onChatMessage
(src/server.ts lines 446–675) -/

/-- Result of one provider call: the perspective string, or the thrown error
(`getAgentByName` and `getPerspective` run inside one `try`). -/
abbrev ProviderResult := Except Unit String

/-- Lines 488–527: each provider failure is caught separately and replaced by
its fixed role-identifying fallback string. -/
def gatherPerspectives (r c u : ProviderResult) : Hypotheses where
  reliability :=
    match r with
    | .ok s => s
    | .error _ => "Reliability Agent unavailable."
  cost :=
    match c with
    | .ok s => s
    | .error _ => "Cost Agent unavailable."
  ux :=
    match u with
    | .ok s => s
    | .error _ => "UX / User Impact Agent unavailable."

/-- Lines 613–629: the record built from the synthesis text, before the
summary is generated (`summary` not yet set). -/
def buildIncident (idv question : String) (now : Nat) (h : Hypotheses)
    (synthText : String) : IncidentMemory where
  id := idv
  question := question
  timestamp := now
  status := .open_
  metricsSnapshot := extractMetrics question
  hypotheses := h
  decision := extractDecision synthText
  reasoning := extractReasoning synthText
  outcome := none
  summary := none

inductive TurnResponse where
  | synthesis (text : String)
  | regular
deriving DecidableEq, Repr

/-- One `onChatMessage` turn of the coordinator, with the opaque
text-completion service abstracted: `synthText` is the synthesis model
output (streamed to the caller), `summarize` the summary model call made by
`generateSummary`.  The returned list is the sequence of `setState` calls the
turn performs: the persistence block (lines 575–645) runs in one `try`; it
sets `incident.summary` from `generateSummary` *before* its single
`setState`, and a thrown summary call reaches the `catch`, so nothing is
stored at all. -/
def coordinatorTurn (q idv : String) (nowIncident nowUpdate : Nat)
    (r c u : ProviderResult) (synthText : String)
    (summarize : IncidentMemory → Except Unit String)
    (st : DebateCoordinatorState) :
    TurnResponse × List DebateCoordinatorState :=
  if isDecisionQuestion q then
    let h := gatherPerspectives r c u
    let inc := buildIncident idv q nowIncident h synthText
    (.synthesis synthText,
      match summarize inc with
      | .error _ => []
      | .ok s =>
        [{ incidents := st.incidents ++ [{ inc with summary := some s }],
           lastUpdated := nowUpdate }])
  else
    (.regular, [])

/-! ## Dispatch order of the perspective fan-out
(src/server.ts lines 494–527) -/

inductive AgentRole where
  | reliability
  | cost
  | ux
deriving DecidableEq, Repr

inductive FanoutEvent where
  | dispatched (r : AgentRole)
  | completed (r : AgentRole)
deriving DecidableEq, Repr

/-- The event order of the fan-out as written: each
`await agent.getPerspective(...)` completes before the next provider call is
even created (three separate awaited statements, lines 494–527). -/
def fanoutEvents : List FanoutEvent :=
  [.dispatched .reliability, .completed .reliability,
   .dispatched .cost, .completed .cost,
   .dispatched .ux, .completed .ux]

/-- Parallel dispatch joined before synthesis means: once any call has
completed (been awaited), no further call is dispatched. -/
def noDispatchAfterCompletion : List FanoutEvent → Bool
  | [] => true
  | .dispatched _ :: t => noDispatchAfterCompletion t
  | .completed _ :: t =>
    t.all fun e =>
      match e with
      | .dispatched _ => false
      | .completed _ => true

/-! ## Supporting lemmas -/

theorem startsWithL_iff (pat l : List Char) :
    startsWithL pat l = true ↔ ∃ l₂, l = pat ++ l₂ := by
  induction pat generalizing l with
  | nil => simp [startsWithL]
  | cons p ps ih =>
    cases l with
    | nil =>
      simp [startsWithL]
    | cons c t =>
      simp only [startsWithL, Bool.and_eq_true, decide_eq_true_eq, ih]
      constructor
      · rintro ⟨rfl, l₂, rfl⟩; exact ⟨l₂, rfl⟩
      · rintro ⟨l₂, h⟩
        cases h
        exact ⟨rfl, l₂, rfl⟩

theorem containsSub_iff (pat l : List Char) :
    containsSub pat l = true ↔ ∃ l₁ l₂, l = l₁ ++ pat ++ l₂ := by
  induction l with
  | nil =>
    simp only [containsSub, startsWithL_iff]
    constructor
    · rintro ⟨l₂, h⟩; exact ⟨[], l₂, by simpa using h⟩
    · rintro ⟨l₁, l₂, h⟩
      refine ⟨l₂, ?_⟩
      have h1 : l₁ = [] := by
        cases l₁ with
        | nil => rfl
        | cons a t => simp at h
      subst h1; simpa using h
  | cons c t ih =>
    simp only [containsSub, Bool.or_eq_true, startsWithL_iff, ih]
    constructor
    · rintro (⟨l₂, h⟩ | ⟨l₁, l₂, h⟩)
      · exact ⟨[], l₂, by simpa using h⟩
      · exact ⟨c :: l₁, l₂, by simp [h]⟩
    · rintro ⟨l₁, l₂, h⟩
      cases l₁ with
      | nil => exact Or.inl ⟨l₂, by simpa using h⟩
      | cons a l₁ =>
        simp only [List.cons_append, List.cons.injEq] at h
        exact Or.inr ⟨l₁, l₂, h.2⟩

theorem matchLitCI_lower {pat l rest : List Char}
    (h : matchLitCI pat l = some rest) : lowerL l = pat ++ lowerL rest := by
  induction pat generalizing l with
  | nil =>
    simp only [matchLitCI, Option.some.injEq] at h
    subst h; rfl
  | cons p ps ih =>
    cases l with
    | nil => simp [matchLitCI] at h
    | cons c t =>
      simp only [matchLitCI] at h
      split at h
      · rename_i hpc
        have := ih h
        simp [lowerL, List.map] at this ⊢
        exact ⟨hpc.symm, by simpa [lowerL] using this⟩
      · exact absurd h (by simp)

theorem scanFor_some_contains {pat : List Char}
    {f : List Char → Option (List Char)} {l res : List Char}
    (h : scanFor pat f l = some res) : containsSub pat (lowerL l) = true := by
  induction l with
  | nil => simp [scanFor] at h
  | cons c t ih =>
    have hcons : lowerL (c :: t) = c.toLower :: lowerL t := rfl
    simp only [scanFor] at h
    cases hm : matchLitCI pat (c :: t) with
    | some rest =>
      rw [hm] at h
      have hsw : startsWithL pat (lowerL (c :: t)) = true :=
        (startsWithL_iff _ _).mpr ⟨lowerL rest, matchLitCI_lower hm⟩
      rw [hcons] at hsw ⊢
      simp [containsSub, hsw]
    | none =>
      rw [hm] at h
      have := ih h
      rw [hcons]
      simp [containsSub, this]

/-- `scanFor` fails when the literal does not occur case-insensitively. -/
theorem scanFor_eq_none {pat : List Char} {f : List Char → Option (List Char)}
    {l : List Char} (h : containsSub pat (lowerL l) = false) :
    scanFor pat f l = none := by
  cases hs : scanFor pat f l with
  | none => rfl
  | some res => exact absurd (scanFor_some_contains hs) (by simp [h])

theorem captureToStars_of_no_star :
    ∀ l : List Char, (∀ ch ∈ l, ch ≠ '*') → captureToStars l = l
  | [], _ => rfl
  | [_], _ => rfl
  | c :: c2 :: t, h => by
    rw [captureToStars, if_neg]
    · rw [captureToStars_of_no_star (c2 :: t)
        (fun ch hch => h ch (List.mem_cons_of_mem _ hch))]
    · rintro ⟨h1, _⟩
      exact h c (by simp) h1

theorem scanToStars_cons_stars (c : Char) (l : List Char)
    (hc : c ≠ '*') (hdot : dotOk c = true) :
    scanToStars (c :: '*' :: '*' :: l) = some l := by
  rw [scanToStars, if_neg (by rintro ⟨h1, _⟩; exact hc h1), if_pos hdot,
    scanToStars, if_pos ⟨rfl, rfl⟩]

theorem splitHyphen_no_hyphen :
    ∀ v : List Char, (∀ ch ∈ v, ch ≠ '-') → splitHyphen v = [v]
  | [], _ => rfl
  | c :: t, h => by
    rw [splitHyphen, if_neg (h c (by simp)),
      splitHyphen_no_hyphen t (fun ch hch => h ch (List.mem_cons_of_mem _ hch))]

theorem splitHyphen_append :
    ∀ u v : List Char, (∀ ch ∈ u, ch ≠ '-') →
      splitHyphen (u ++ '-' :: v) = u :: splitHyphen v
  | [], v, _ => by
    rw [List.nil_append, splitHyphen, if_pos rfl]
  | c :: tu, v, h => by
    rw [List.cons_append, splitHyphen, if_neg (h c (by simp)),
      splitHyphen_append tu v (fun ch hch => h ch (List.mem_cons_of_mem _ hch))]

/-! ## Claim theorems -/

/-- C5: for every synthesis text in which the "Final Recommendation" marker is
absent (case-insensitively), the extracted decision is the fixed literal
"No clear decision reached"; for every text in which the "Why" marker is
absent, the extracted reasoning is the single-entry fixed fallback.  The
extraction functions are total Lean functions, so extraction never throws. -/
theorem claim5_extraction_fallbacks (text : String) :
    (containsSub "**final recommendation:**".data (lowerL text.data) = false →
      extractDecision text = "No clear decision reached") ∧
    (containsSub "**why".data (lowerL text.data) = false →
      extractReasoning text = ["Decision made based on agent perspectives"]) := by
  constructor
  · intro h
    simp [extractDecision, scanFor_eq_none h]
  · intro h
    simp [extractReasoning, scanFor_eq_none h]

/-- Witness for C5 at the concrete text "hello world", which contains
neither marker. -/
theorem claim5_extraction_fallbacks_witness :
    extractDecision "hello world" = "No clear decision reached" ∧
    extractReasoning "hello world" = ["Decision made based on agent perspectives"] :=
  ⟨(claim5_extraction_fallbacks "hello world").1 (by decide),
   (claim5_extraction_fallbacks "hello world").2 (by decide)⟩

/-- C7: the decision classifier returns true exactly when one of the seven
fixed keywords occurs case-insensitively as a substring of the question, and
empty or missing text classifies as false. -/
theorem claim7_classifier :
    (∀ q : String, isDecisionQuestion q = true ↔
      ∃ k ∈ decisionKeywords, ∃ l₁ l₂, lowerL q.data = l₁ ++ k.data ++ l₂) ∧
    isDecisionQuestion "" = false ∧
    isDecisionQuestion (questionText none) = false := by
  refine ⟨fun q => ?_, by decide, by decide⟩
  simp only [isDecisionQuestion, List.any_eq_true]
  constructor
  · rintro ⟨k, hk, hc⟩
    exact ⟨k, hk, (containsSub_iff _ _).mp hc⟩
  · rintro ⟨k, hk, h⟩
    exact ⟨k, hk, (containsSub_iff _ _).mpr h⟩

/-- Witness for C7: "Should we launch?" is classified as a decision
question, through the keyword "should we". -/
theorem claim7_classifier_witness : isDecisionQuestion "Should we launch?" = true :=
  (claim7_classifier.1 "Should we launch?").mpr
    ⟨"should we", by decide, [], " launch?".data, by decide⟩

/-- C8: `deleteIncident` always returns `{success: true, deletedId: id}`,
stamps `lastUpdated`, removes exactly the records with the given id keeping
the others in order (the result is a sublist of the original sequence), and
leaves the incidents sequence unchanged when no record has that id. -/
theorem claim8_delete_idempotent (now : Nat) (idv : String)
    (st : DebateCoordinatorState) :
    (deleteIncident now idv st).1 = ⟨true, idv⟩ ∧
    (deleteIncident now idv st).2.lastUpdated = now ∧
    (deleteIncident now idv st).2.incidents
      = st.incidents.filter (fun i => i.id != idv) ∧
    List.Sublist (deleteIncident now idv st).2.incidents st.incidents ∧
    ((∀ i ∈ st.incidents, i.id ≠ idv) →
      (deleteIncident now idv st).2.incidents = st.incidents) := by
  refine ⟨rfl, rfl, rfl, List.filter_sublist _, fun h => ?_⟩
  apply List.filter_eq_self.mpr
  intro a ha
  simpa using h a ha

/-- Witness for C8 at a concrete store without the requested id: the delete
reports success and the store keeps its single record. -/
theorem claim8_delete_idempotent_witness :
    (deleteIncident 9 "zzz"
      ⟨[⟨"a", "qa", 1, .open_, none, ⟨"r", "c", "u"⟩, "d", ["x"], none, none⟩], 7⟩).1
      = ⟨true, "zzz"⟩ ∧
    (deleteIncident 9 "zzz"
      ⟨[⟨"a", "qa", 1, .open_, none, ⟨"r", "c", "u"⟩, "d", ["x"], none, none⟩], 7⟩).2.incidents
      = [⟨"a", "qa", 1, .open_, none, ⟨"r", "c", "u"⟩, "d", ["x"], none, none⟩] :=
  ⟨(claim8_delete_idempotent 9 "zzz" _).1,
   (claim8_delete_idempotent 9 "zzz" _).2.2.2.2 (by decide)⟩

/-- C3 fails on the code: with an absent (or empty) search query,
`getIncidents` runs `incidents.sort(...)` directly on `state.incidents`, and
JS `Array.prototype.sort` reorders that array in place.  At a store holding
two records in ascending timestamp order, the state after the call has its
incidents reordered (newest first) while `lastUpdated` is untouched — the
claim that search leaves the stored sequence and its element order unchanged
is violated. -/
theorem claim3_search_mutates_state :
    (getIncidents none
        ⟨[⟨"a", "qa", 1, .open_, none, ⟨"r", "c", "u"⟩, "d", ["x"], none, none⟩,
          ⟨"b", "qb", 2, .open_, none, ⟨"r", "c", "u"⟩, "d", ["x"], none, none⟩], 7⟩).2
      ≠ ⟨[⟨"a", "qa", 1, .open_, none, ⟨"r", "c", "u"⟩, "d", ["x"], none, none⟩,
          ⟨"b", "qb", 2, .open_, none, ⟨"r", "c", "u"⟩, "d", ["x"], none, none⟩], 7⟩ ∧
    (getIncidents none
        ⟨[⟨"a", "qa", 1, .open_, none, ⟨"r", "c", "u"⟩, "d", ["x"], none, none⟩,
          ⟨"b", "qb", 2, .open_, none, ⟨"r", "c", "u"⟩, "d", ["x"], none, none⟩], 7⟩).2
      = ⟨[⟨"b", "qb", 2, .open_, none, ⟨"r", "c", "u"⟩, "d", ["x"], none, none⟩,
          ⟨"a", "qa", 1, .open_, none, ⟨"r", "c", "u"⟩, "d", ["x"], none, none⟩], 7⟩ := by
  decide

/-- C9 fails on the code: in the fan-out event order of
`DebateCoordinator.onChatMessage`, the reliability call is awaited to
completion before the cost call is dispatched (and cost before ux), so
dispatches do not all precede the join — the dispatch is sequential, not
parallel. -/
theorem claim9_sequential_dispatch :
    noDispatchAfterCompletion fanoutEvents = false := by decide

/-- C1 fails on the code: in the persistence block of the decision turn,
`generateSummary` is awaited and `incident.summary` assigned *before* the
single `setState` (src/server.ts lines 632–641).  At this concrete turn the
whole persistence step performs exactly one state update, and the record it
appends already carries its summary — no state ever holds the record without
a summary, and no subsequent attach-summary update exists (the source defines
no `attachSummary` at all). -/
theorem claim1_counterexample :
    (coordinatorTurn "should we deploy" "id1" 3 5 (.ok "r") (.ok "c") (.ok "u")
        "**Final Recommendation:**\nShip it.\n\n**Why:**\n- A"
        (fun _ => .ok "S") ⟨[], 0⟩).2
      = [⟨[⟨"id1", "should we deploy", 3, .open_, none, ⟨"r", "c", "u"⟩,
            "Ship it.", ["A"], none, some "S"⟩], 5⟩] := by
  decide

/-- C1 amended: a decision turn performs at most one state update; when the
summary call succeeds the single update appends the record with its summary
already attached (and stamps `lastUpdated`), when it fails nothing is stored;
every record new to the store in any update already has a summary. -/
theorem claim1_amended_single_update (q idv : String) (n1 n2 : Nat)
    (r c u : ProviderResult) (synthText : String)
    (summarize : IncidentMemory → Except Unit String)
    (st : DebateCoordinatorState)
    (hq : isDecisionQuestion q = true) :
    ((coordinatorTurn q idv n1 n2 r c u synthText summarize st).2).length ≤ 1 ∧
    (∀ st' ∈ (coordinatorTurn q idv n1 n2 r c u synthText summarize st).2,
      ∃ s, summarize (buildIncident idv q n1 (gatherPerspectives r c u) synthText)
          = .ok s ∧
        st' = ⟨st.incidents ++
          [{ buildIncident idv q n1 (gatherPerspectives r c u) synthText with
              summary := some s }], n2⟩) ∧
    (∀ st' ∈ (coordinatorTurn q idv n1 n2 r c u synthText summarize st).2,
      ∀ rec ∈ st'.incidents, rec ∈ st.incidents ∨ rec.summary ≠ none) := by
  simp only [coordinatorTurn, hq, if_true]
  cases hsum : summarize (buildIncident idv q n1 (gatherPerspectives r c u) synthText) with
  | error e => simp
  | ok s =>
    refine ⟨by simp, ?_, ?_⟩
    · intro st' hst'
      simp only [List.mem_singleton] at hst'
      exact ⟨s, rfl, hst'⟩
    · intro st' hst' rec hrec
      simp only [List.mem_singleton] at hst'
      subst hst'
      simp only [List.mem_append, List.mem_singleton] at hrec
      rcases hrec with h | h
      · exact Or.inl h
      · subst h; simp

/-- Witness for the amended C1 at a concrete decision turn. -/
theorem claim1_amended_single_update_witness :
    ((coordinatorTurn "should we deploy" "id1" 3 5 (.ok "r") (.ok "c") (.ok "u")
        "**Final Recommendation:**\nShip it.\n\n**Why:**\n- A"
        (fun _ => .ok "S") ⟨[], 0⟩).2).length ≤ 1 :=
  (claim1_amended_single_update "should we deploy" "id1" 3 5 (.ok "r") (.ok "c")
    (.ok "u") "**Final Recommendation:**\nShip it.\n\n**Why:**\n- A"
    (fun _ => .ok "S") ⟨[], 0⟩ (by decide)).1

/-- C2 fails on the code: on the spec's own example question the error-rate
pattern `/error rate[:\s]+([\d.]+%?)/i` does not match — the word "is"
intervenes between "error rate" and the number — so only the latency is
extracted and `errorRate` is absent, not 6.5. -/
theorem claim2_counterexample :
    extractMetrics "error rate is 6.5%, p95 latency: 120ms"
      = some ⟨none, some (some (120 : ℚ))⟩ ∧
    extractMetrics "error rate is 6.5%, p95 latency: 120ms"
      ≠ some ⟨some (some (13 / 2 : ℚ)), some (some (120 : ℚ))⟩ := by
  have her : scanFor "error rate".data errorRateTail
      "error rate is 6.5%, p95 latency: 120ms".data = none := by decide
  have hla : scanLatency "error rate is 6.5%, p95 latency: 120ms".data
      = some "120ms".data := by decide
  have h : extractMetrics "error rate is 6.5%, p95 latency: 120ms"
      = some ⟨none, some (some (120 : ℚ))⟩ := by
    simp [extractMetrics, her, hla]
    rw [show jsParseFloat "120ms".data = some ((digitsVal ['1', '2', '0'] : ℚ)) from rfl]
    norm_num [show digitsVal ['1', '2', '0'] = 120 from by decide]
  exact ⟨h, by rw [h]; simp⟩

/-- C2 amended: with the documented colon/whitespace form
"error rate: 6.5%, p95 latency: 120ms" both metrics are extracted
(`errorRate = 6.5`, `latency = 120`); for every question matched by neither
pattern the stored `metricsSnapshot` is absent. -/
theorem claim2_amended :
    extractMetrics "error rate: 6.5%, p95 latency: 120ms"
      = some ⟨some (some (13 / 2 : ℚ)), some (some (120 : ℚ))⟩ ∧
    (∀ q : String,
      scanFor "error rate".data errorRateTail q.data = none →
      scanLatency q.data = none →
      extractMetrics q = none) := by
  constructor
  · have her : scanFor "error rate".data errorRateTail
        "error rate: 6.5%, p95 latency: 120ms".data = some "6.5%".data := by decide
    have hla : scanLatency "error rate: 6.5%, p95 latency: 120ms".data
        = some "120ms".data := by decide
    simp [extractMetrics, her, hla]
    rw [show jsParseFloat "6.5%".data
        = some ((digitsVal ['6'] : ℚ) + (digitsVal ['5'] : ℚ) / (10 : ℚ) ^ (1 : ℕ))
        from rfl,
      show jsParseFloat "120ms".data = some ((digitsVal ['1', '2', '0'] : ℚ)) from rfl]
    norm_num [show digitsVal ['6'] = 6 from by decide,
      show digitsVal ['5'] = 5 from by decide,
      show digitsVal ['1', '2', '0'] = 120 from by decide]
  · intro q h1 h2
    simp [extractMetrics, h1, h2]

/-- Witness for the amended C2: a question matching neither pattern stores
no metrics snapshot. -/
theorem claim2_amended_witness : extractMetrics "hello world" = none :=
  claim2_amended.2 "hello world" (by decide) (by decide)

/-- C4 fails as a universal over all texts *containing* the block: prefixing
an earlier "Final Recommendation" section gives a text that still contains
the block, but whose leftmost match makes the extracted decision "Ship it."
instead of "Roll back.". -/
theorem claim4_counterexample :
    containsSub "**Final Recommendation:**\nRoll back.\n\n**Why:**\n- A\n- B".data
        ("**Final Recommendation:**\nShip it.\n\n**Final Recommendation:**\nRoll back.\n\n**Why:**\n- A\n- B").data
      = true ∧
    extractDecision
        "**Final Recommendation:**\nShip it.\n\n**Final Recommendation:**\nRoll back.\n\n**Why:**\n- A\n- B"
      ≠ "Roll back." := by decide

/-- C4 amended: for the synthesis text consisting of the block itself
(equally, any text in which these markers occur first and nothing follows),
extraction yields decision "Roll back." and reasoning ["A", "B"]. -/
theorem claim4_amended_block_extraction :
    extractDecision "**Final Recommendation:**\nRoll back.\n\n**Why:**\n- A\n- B"
      = "Roll back." ∧
    extractReasoning "**Final Recommendation:**\nRoll back.\n\n**Why:**\n- A\n- B"
      = ["A", "B"] := by decide

/-- C6: when exactly one of the three provider calls fails, the gathered
hypotheses keep the two successful strings and substitute the fixed fallback
naming the failed role (all three fields populated — the record built for
storage carries exactly these hypotheses), and the turn still answers with
the synthesis response. -/
theorem claim6_single_provider_failure (q idv : String) (n1 n2 : Nat) (e : Unit)
    (sr sc su : String) (synthText : String)
    (summarize : IncidentMemory → Except Unit String)
    (st : DebateCoordinatorState) (hq : isDecisionQuestion q = true) :
    (gatherPerspectives (.error e) (.ok sc) (.ok su)
        = ⟨"Reliability Agent unavailable.", sc, su⟩ ∧
      (coordinatorTurn q idv n1 n2 (.error e) (.ok sc) (.ok su) synthText summarize st).1
        = .synthesis synthText) ∧
    (gatherPerspectives (.ok sr) (.error e) (.ok su)
        = ⟨sr, "Cost Agent unavailable.", su⟩ ∧
      (coordinatorTurn q idv n1 n2 (.ok sr) (.error e) (.ok su) synthText summarize st).1
        = .synthesis synthText) ∧
    (gatherPerspectives (.ok sr) (.ok sc) (.error e)
        = ⟨sr, sc, "UX / User Impact Agent unavailable."⟩ ∧
      (coordinatorTurn q idv n1 n2 (.ok sr) (.ok sc) (.error e) synthText summarize st).1
        = .synthesis synthText) ∧
    (∀ r c u : ProviderResult,
      (buildIncident idv q n1 (gatherPerspectives r c u) synthText).hypotheses
        = gatherPerspectives r c u) := by
  refine ⟨⟨rfl, ?_⟩, ⟨rfl, ?_⟩, ⟨rfl, ?_⟩, fun r c u => rfl⟩ <;>
    simp [coordinatorTurn, hq]

/-- Witness for C6: a concrete turn with the reliability provider failing
still responds with the synthesis, and its hypotheses carry the fallback. -/
theorem claim6_single_provider_failure_witness :
    gatherPerspectives (.error ()) (.ok "keep it") (.ok "users fine")
      = ⟨"Reliability Agent unavailable.", "keep it", "users fine"⟩ ∧
    (coordinatorTurn "should we deploy" "i" 1 2 (.error ()) (.ok "keep it")
        (.ok "users fine") "T" (fun _ => .ok "S") ⟨[], 0⟩).1
      = .synthesis "T" :=
  (claim6_single_provider_failure "should we deploy" "i" 1 2 () "r" "keep it"
    "users fine" "T" (fun _ => .ok "S") ⟨[], 0⟩ (by decide)).1

/-- C10: reasoning extraction splits the captured "Why" block at *every*
`-` character, not only at bullet markers that start a line: for any block
`u-v` (no further hyphen and no `*` in `u` or `v`, both non-blank), the
entries are the trims of `u` and `v` — a hyphenated phrase such as
"low-cost" is cut at its hyphen, and `u`, the prose between the marker and
the first hyphen (no bullet required), becomes its own entry. -/
theorem claim10_hyphen_split (u v : List Char)
    (huh : ∀ ch ∈ u, ch ≠ '-') (hus : ∀ ch ∈ u, ch ≠ '*')
    (hvh : ∀ ch ∈ v, ch ≠ '-') (hvs : ∀ ch ∈ v, ch ≠ '*')
    (htu : trimJs u ≠ []) (htv : trimJs v ≠ []) :
    extractReasoning (String.mk ("**Why:**".data ++ u ++ '-' :: v))
      = [String.mk (trimJs u), String.mk (trimJs v)] := by
  have hstar : ∀ ch ∈ u ++ '-' :: v, ch ≠ '*' := by
    intro ch hch
    rcases List.mem_append.mp hch with h | h
    · exact hus ch h
    · rcases List.mem_cons.mp h with rfl | h
      · decide
      · exact hvs ch h
  have hm : matchLitCI "**why".data
      ('*' :: '*' :: 'W' :: 'h' :: 'y' :: ':' :: '*' :: '*' :: (u ++ '-' :: v))
      = some (':' :: '*' :: '*' :: (u ++ '-' :: v)) := rfl
  have hwt : whyTail (':' :: '*' :: '*' :: (u ++ '-' :: v))
      = some (u ++ '-' :: v) := by
    rw [whyTail, scanToStars_cons_stars ':' _ (by decide) (by decide)]
    simp [captureToStars_of_no_star _ hstar]
  have hsf : scanFor "**why".data whyTail
      ("**Why:**".data ++ u ++ '-' :: v) = some (u ++ '-' :: v) := by
    show scanFor "**why".data whyTail
      ('*' :: '*' :: 'W' :: 'h' :: 'y' :: ':' :: '*' :: '*' :: (u ++ '-' :: v)) = _
    simp only [scanFor, hm, hwt]
  have hdata : (String.mk ("**Why:**".data ++ u ++ '-' :: v)).data
      = "**Why:**".data ++ u ++ '-' :: v := rfl
  simp only [extractReasoning, hdata, hsf]
  rw [splitHyphen_append u v huh, splitHyphen_no_hyphen v hvh]
  simp [List.filter_cons, htu, htv]

/-- Witness for C10: "**Why:** go with low-cost plan" — the hyphen inside
"low-cost" splits the phrase, and the prose before it becomes an entry. -/
theorem claim10_hyphen_split_witness :
    extractReasoning "**Why:** go with low-cost plan"
      = ["go with low", "cost plan"] := by
  have h := claim10_hyphen_split " go with low".data "cost plan".data
    (by decide) (by decide) (by decide) (by decide) (by decide) (by decide)
  rw [show String.mk ("**Why:**".data ++ " go with low".data ++ '-' :: "cost plan".data)
      = "**Why:** go with low-cost plan" from rfl] at h
  rw [show String.mk (trimJs " go with low".data) = "go with low" from rfl] at h
  rw [show String.mk (trimJs "cost plan".data) = "cost plan" from rfl] at h
  exact h

end DecisionAgent
